import Mathlib

/-!
Verification development for the portfolio API script (`src/Code.js`).

The script is a Google Apps Script web endpoint: `doGet` routes on the
`action` query parameter, `getPortfolioItems` turns a rectangular value
grid read from a spreadsheet into item records, `getDriveImages` lists a
storage folder and base64-encodes image files, and `parseTags`,
`parseBoolean`, `formatDate`, `createErrorResponse` are the helpers.

The embedding below mirrors the source function by function.  Values
returned by the external spreadsheet API are modelled by `JSVal`;
external vendor routines the script merely calls (`Utilities.formatDate`,
`String(Date)`, `Utilities.base64Encode`) are passed in as an `Ext`
record of uninterpreted functions.  JSON serialization is external as
well: responses are modelled structurally (`Response`), pre-serialization.
-/

set_option autoImplicit false

namespace PortfolioApi

universe u v w

/-- A spreadsheet/JS cell value as the external APIs deliver it:
`undefined`, `null`, booleans, numbers, strings, or date objects.
Numbers are modelled as integers; a date object carries its timestamp. -/
inductive JSVal where
  | undef : JSVal
  | null : JSVal
  | bool : Bool → JSVal
  | num : Int → JSVal
  | str : String → JSVal
  | date : Int → JSVal
deriving DecidableEq

/-- JavaScript truthiness test, specialised to `JSVal`.  `undefined`,
`null`, `false`, `0` and `""` are falsy; date objects are always truthy. -/
def falsy : JSVal → Bool
  | .undef => true
  | .null => true
  | .bool b => !b
  | .num n => n == 0
  | .str s => s == ""
  | .date _ => false

/-- External vendor routines called by the script but defined outside it. -/
structure Ext where
  /-- `Utilities.formatDate(d, 'Asia/Tokyo', 'yyyy-MM-dd')`. -/
  formatDateTokyo : Int → String
  /-- JavaScript `String(dateObject)`. -/
  dateToString : Int → String
  /-- `Utilities.base64Encode(bytes)`. -/
  base64Encode : List Nat → String

/-- JavaScript `String(v)` stringification on `JSVal`. -/
def jsToString (ext : Ext) : JSVal → String
  | .undef => "undefined"
  | .null => "null"
  | .bool b => if b then "true" else "false"
  | .num n => toString n
  | .str s => s
  | .date t => ext.dateToString t

/-- The `String(value || '')` coercion used for the string fields:
falsy values collapse to the empty string, anything else stringifies. -/
def strOrEmpty (ext : Ext) (value : JSVal) : String :=
  if falsy value then "" else jsToString ext value

/-- `formatDate` from the source: falsy input gives `''`; a date object is
rendered `yyyy-MM-dd` in Asia/Tokyo; anything else is stringified. -/
def formatDate (ext : Ext) (dateValue : JSVal) : String :=
  if falsy dateValue then ""
  else
    match dateValue with
    | .date t => ext.formatDateTokyo t
    | v => jsToString ext v

/-- Helper of `jsSplit`: walk the characters, cutting at the separator;
`acc` holds the current piece reversed. -/
def jsSplitAux (sep : Char) : List Char → List Char → List String
  | [], acc => [String.mk acc.reverse]
  | c :: cs, acc =>
    if c == sep then String.mk acc.reverse :: jsSplitAux sep cs []
    else jsSplitAux sep cs (c :: acc)

/-- JavaScript `s.split(sep)` for a one-character separator (the source
only splits on `','`).  `"".split(',')` is `[""]`, and empty pieces are
kept. -/
def jsSplit (sep : Char) (s : String) : List String :=
  jsSplitAux sep s.data []

/-- JavaScript `s.trim()`: strip leading and trailing whitespace. -/
def jsTrim (s : String) : String :=
  String.mk (((s.data.dropWhile Char.isWhitespace).reverse.dropWhile Char.isWhitespace).reverse)

/-- JavaScript `s.toLowerCase()` (character-wise lowering suffices for
the comparisons the source performs). -/
def jsToLower (s : String) : String :=
  String.mk (s.data.map Char.toLower)

/-- `parseTags` from the source: falsy input gives `[]`; otherwise split
the stringification on `','`, trim each piece, keep pieces of positive
length. -/
def parseTags (ext : Ext) (tagsString : JSVal) : List String :=
  if falsy tagsString then []
  else
    ((jsSplit ',' (jsToString ext tagsString)).map jsTrim).filter
      (fun tag => decide (0 < tag.length))

/-- `parseBoolean` from the source: a native boolean passes through; a
falsy non-boolean gives `false`; otherwise lowercase-trim the
stringification and compare with `"true"`, `"1"`, `"yes"`. -/
def parseBoolean (ext : Ext) (value : JSVal) : Bool :=
  match value with
  | .bool b => b
  | v =>
    if falsy v then false
    else
      let strValue := jsTrim (jsToLower (jsToString ext v))
      strValue == "true" || strValue == "1" || strValue == "yes"

/-- The fixed column-index object `COL` of `getPortfolioItems`, as a map
from column name to the index the source uses into a row array. -/
def COL : String → Option Nat
  | "date" => some 1
  | "title" => some 2
  | "description" => some 3
  | "imageUrl" => some 4
  | "tags" => some 5
  | "isCommision" => some 6
  | "Amazon" => some 7
  | "DLsite" => some 8
  | "公式サイト" => some 9
  | "Youtube" => some 10
  | "ニコニコ" => some 11
  | "メロンブックス" => some 12
  | "リンク" => some 13
  | _ => none

/-- JavaScript array indexing `row[i]`: out-of-range gives `undefined`. -/
def rowGet (row : List JSVal) (i : Nat) : JSVal :=
  row.getD i JSVal.undef

/-- `row[COL[key]]`: an unknown key indexes with `undefined`, which also
yields `undefined`. -/
def colCell (row : List JSVal) (key : String) : JSVal :=
  match COL key with
  | some i => rowGet row i
  | none => JSVal.undef

/-- The row filter of `getPortfolioItems`:
`row[COL.title] !== undefined && row[COL.title] !== ''`. -/
def keepRow (row : List JSVal) : Bool :=
  colCell row "title" != JSVal.undef && colCell row "title" != JSVal.str ""

/-- The fixed ordered list `LINK_KEYS` of link columns. -/
def LINK_KEYS : List String :=
  ["Amazon", "DLsite", "公式サイト", "Youtube", "ニコニコ", "メロンブックス", "リンク"]

/-- One `{label, url}` entry of the `links` field. -/
structure LinkEntry where
  label : String
  url : String
deriving DecidableEq

/-- The output record shape of `getPortfolioItems`. -/
structure PortfolioItem where
  id : Nat
  date : String
  title : String
  description : String
  imageUrl : String
  tags : List String
  links : List LinkEntry
  isCommision : Bool
deriving DecidableEq

/-- The object literal built by the `.map((row, index) => ...)` callback
of `getPortfolioItems`. -/
def rowToItem (ext : Ext) (index : Nat) (row : List JSVal) : PortfolioItem :=
  { id := index
    date := formatDate ext (colCell row "date")
    title := strOrEmpty ext (colCell row "title")
    description := strOrEmpty ext (colCell row "description")
    imageUrl := strOrEmpty ext (colCell row "imageUrl")
    tags := parseTags ext (colCell row "tags")
    links :=
      (LINK_KEYS.map
        (fun key => ({ label := key, url := strOrEmpty ext (colCell row key) } : LinkEntry))).filter
        (fun link => link.url != "")
    isCommision := parseBoolean ext (colCell row "isCommision") }

/-- JavaScript `Array.prototype.map((x, index) => f index x)`, made
explicit so the running index is visible to induction. -/
def mapWithIndex {α : Type u} {β : Type v} (f : Nat → α → β) : Nat → List α → List β
  | _, [] => []
  | i, a :: as => f i a :: mapWithIndex f (i + 1) as

/-- The whole row pipeline of `getPortfolioItems` applied to the value
grid returned by the bulk range read: filter on a non-empty title cell,
then map rows to items with the post-filter index as `id`. -/
def itemsOfValues (ext : Ext) (values : List (List JSVal)) : List PortfolioItem :=
  mapWithIndex (rowToItem ext) 0 (values.filter keepRow)

/-- The sheet handle as the script consumes it: `getLastRow()` and the
value grid `getRange(2, 1, lastRow - 1, COLUMN_COUNT).getValues()`. -/
structure SheetData where
  lastRow : Nat
  dataRows : List (List JSVal)

/-- A file of the storage folder: id, MIME type and raw bytes. -/
structure DriveFile where
  id : String
  mimeType : String
  bytes : List Nat
deriving DecidableEq

/-- The external state one request observes: the configured sheet name,
the sheet lookup result (`none` = sheet not found), the configured folder
id property (`none` = unset), and the folder lookup outcome
(`Except.error` models `DriveApp.getFolderById` throwing). -/
structure Env where
  sheetName : String
  sheet : Option SheetData
  driveFolderId : Option String
  folder : Except String (List DriveFile)

/-- `getPortfolioItems`: throws (modelled as `Except.error`) when the
sheet is missing, returns `[]` when `lastRow <= 1`, and otherwise the
mapped and filtered grid. -/
def getPortfolioItems (ext : Ext) (env : Env) : Except String (List PortfolioItem) :=
  match env.sheet with
  | none => Except.error ("Sheet \"" ++ env.sheetName ++ "\" not found")
  | some sheet =>
    if sheet.lastRow ≤ 1 then Except.ok []
    else Except.ok (itemsOfValues ext sheet.dataRows)

/-- The fixed MIME-type allow-list `imageMimeTypes`. -/
def imageMimeTypes : List String :=
  ["image/png", "image/jpeg", "image/gif", "image/webp", "image/svg+xml"]

/-- The output record shape of `getDriveImages`. -/
structure ImageRecord where
  name : String
  mimeType : String
  data : String
deriving DecidableEq

/-- The `while (files.hasNext())` loop of `getDriveImages`: walk the
listing in order, keep allow-listed files, push
`{name: fileId, mimeType, data: base64}`. -/
def collectImages (ext : Ext) : List DriveFile → List ImageRecord
  | [] => []
  | file :: files =>
    if imageMimeTypes.contains file.mimeType then
      { name := file.id, mimeType := file.mimeType, data := ext.base64Encode file.bytes }
        :: collectImages ext files
    else collectImages ext files

/-- The `!DRIVE_FOLDER_ID` guard: the property is unset (`null`) or the
empty string. -/
def folderIdMissing (env : Env) : Bool :=
  match env.driveFolderId with
  | none => true
  | some s => s == ""

/-- `getDriveImages`: throws when the folder id property is falsy,
propagates a folder lookup failure, and otherwise collects the
allow-listed files of the listing. -/
def getDriveImages (ext : Ext) (env : Env) : Except String (List ImageRecord) :=
  if folderIdMissing env then
    Except.error "DRIVE_FOLDER_ID is not set in script properties"
  else
    match env.folder with
    | Except.error m => Except.error m
    | Except.ok files => Except.ok (collectImages ext files)

/-- The request event `e` of `doGet`; `parameter` may be absent and is an
association of query-parameter names to values. -/
structure ReqEvent where
  parameter : Option (List (String × String))

/-- `(e && e.parameter && e.parameter.action) || 'items'`: any falsy link
in the chain (missing event, missing parameter object, missing or empty
`action`) defaults the action to `'items'`. -/
def requestAction (e : Option ReqEvent) : String :=
  match e with
  | none => "items"
  | some ev =>
    match ev.parameter with
    | none => "items"
    | some params =>
      match params.lookup "action" with
      | none => "items"
      | some a => if a == "" then "items" else a

/-- The successful payload: one of the two collections, pre-serialization. -/
inductive Payload where
  | items : List PortfolioItem → Payload
  | images : List ImageRecord → Payload
deriving DecidableEq

/-- A response, structurally: either a successful JSON payload or the
error envelope `{error: true, message, statusCode}`. -/
inductive Response where
  | success : Payload → Response
  | errorEnv : String → Nat → Response
deriving DecidableEq

/-- `createErrorResponse(message, statusCode)`: builds the envelope with
`statusCode || 500`. -/
def createErrorResponse (message : String) (statusCode : Nat) : Response :=
  Response.errorEnv message (if statusCode == 0 then 500 else statusCode)

/-- JavaScript `Error.prototype.toString()` for `new Error(m)`. -/
def errToString (m : String) : String := "Error: " ++ m

/-- The `result` variable of `doGet`: the `switch` sends `'images'` to
`getDriveImages` and both `'items'` and the default branch to
`getPortfolioItems`, so the dispatch is on `action == 'images'`. -/
def routeResult (ext : Ext) (env : Env) (e : Option ReqEvent) : Except String Payload :=
  if requestAction e == "images" then
    match getDriveImages ext env with
    | Except.ok imgs => Except.ok (Payload.images imgs)
    | Except.error m => Except.error m
  else
    match getPortfolioItems ext env with
    | Except.ok its => Except.ok (Payload.items its)
    | Except.error m => Except.error m

/-- `doGet`: serialize the routed result on success, and catch any thrown
error into `createErrorResponse('Internal server error: ' + error, 500)`. -/
def doGet (ext : Ext) (env : Env) (e : Option ReqEvent) : Response :=
  match routeResult ext env e with
  | Except.ok payload => Response.success payload
  | Except.error m => createErrorResponse ("Internal server error: " ++ errToString m) 500

/-! ### Concrete instances used by witnesses and counterexamples -/

/-- A concrete instantiation of the external vendor routines, for
evaluating the embedding on closed inputs. -/
def extC : Ext :=
  { formatDateTokyo := fun _ => "1970-01-01"
    dateToString := fun _ => "Thu Jan 01 1970"
    base64Encode := fun _ => "QUJD" }

/-! ### Helper lemmas -/

theorem length_mapWithIndex {α : Type u} {β : Type v} (f : Nat → α → β) (n : Nat)
    (l : List α) : (mapWithIndex f n l).length = l.length := by
  induction l generalizing n with
  | nil => rfl
  | cons a as ih => simp [mapWithIndex, ih]

theorem map_id_mapWithIndex (ext : Ext) (n : Nat) (l : List (List JSVal)) :
    (mapWithIndex (rowToItem ext) n l).map PortfolioItem.id = List.range' n l.length := by
  induction l generalizing n with
  | nil => rfl
  | cons r rs ih => simp [mapWithIndex, rowToItem, List.range'_succ, ih]

theorem map_proj_mapWithIndex {γ : Type w} (ext : Ext) (g : PortfolioItem → γ)
    (h : List JSVal → γ) (hc : ∀ i row, g (rowToItem ext i row) = h row) (n : Nat)
    (l : List (List JSVal)) : (mapWithIndex (rowToItem ext) n l).map g = l.map h := by
  induction l generalizing n with
  | nil => rfl
  | cons r rs ih => simp [mapWithIndex, hc, ih]

theorem all_mapWithIndex (ext : Ext) (P : PortfolioItem → Bool)
    (hP : ∀ i row, P (rowToItem ext i row) = true) (n : Nat) (l : List (List JSVal)) :
    ((mapWithIndex (rowToItem ext) n l).all P) = true := by
  induction l generalizing n with
  | nil => rfl
  | cons r rs ih => simp [mapWithIndex, hP, ih]

theorem rowToItem_links (ext : Ext) (index : Nat) (row : List JSVal) :
    (rowToItem ext index row).links =
      (LINK_KEYS.filter (fun key => strOrEmpty ext (colCell row key) != "")).map
        (fun key => ({ label := key, url := strOrEmpty ext (colCell row key) } : LinkEntry)) := by
  exact List.filter_map (p := fun link : LinkEntry => link.url != "")
    (fun key => ({ label := key, url := strOrEmpty ext (colCell row key) } : LinkEntry)) LINK_KEYS

/-! ### C1 -/

/-- C1: for every input value grid, the `id` fields of the items produced
by the `getPortfolioItems` row pipeline are the contiguous ascending
integers `0, 1, 2, ...` assigned in source-row order among the rows that
pass the title filter: the list of ids equals `List.range k` where `k` is
the number of retained rows, so each item's id is its zero-based rank
among retained rows, and a dropped row consumes no id slot. -/
theorem itemIds_contiguous (ext : Ext) (values : List (List JSVal)) :
    (itemsOfValues ext values).map PortfolioItem.id =
      List.range ((values.filter keepRow).length)
    ∧ (itemsOfValues ext values).length = (values.filter keepRow).length := by
  constructor
  · rw [List.range_eq_range']
    exact map_id_mapWithIndex ext 0 (values.filter keepRow)
  · exact length_mapWithIndex (rowToItem ext) 0 (values.filter keepRow)

/-! ### C2 -/

/-- A thirteen-column data row whose title cell (the cell the source
reads at `COL.title`) holds the number `0`: retained by the filter, but
its title coerces to the empty string. -/
def rowTitleZero : List JSVal :=
  [JSVal.str "p1", JSVal.str "2024-05-01", JSVal.num 0, JSVal.str "desc",
   JSVal.str "img", JSVal.str "tag", JSVal.str "no", JSVal.str "",
   JSVal.str "", JSVal.str "", JSVal.str "", JSVal.str "", JSVal.str ""]

/-- C2 counterexample: a row whose title cell is the number `0` is
neither `undefined` nor the empty string, so it is retained, yet the
emitted `title` field is the empty string — the output contains a
`PortfolioItem` whose title is empty. -/
theorem titleZero_retained_with_empty_title :
    colCell rowTitleZero "title" = JSVal.num 0
    ∧ keepRow rowTitleZero = true
    ∧ (itemsOfValues extC [rowTitleZero]).length = 1
    ∧ (itemsOfValues extC [rowTitleZero]).map PortfolioItem.title = [""] := by
  refine ⟨rfl, rfl, rfl, rfl⟩

/-- C2 amended: a row is retained exactly when its title cell is neither
`undefined` nor the empty string, and each retained item's `title` is the
`String(cell || '')` coercion of its title cell — empty exactly when that
cell is falsy (such as the number `0`, `false` or `null`), and the
stringification of the cell otherwise. -/
theorem title_is_coerced_title_cell (ext : Ext) (values : List (List JSVal)) :
    (itemsOfValues ext values).map PortfolioItem.title =
      (values.filter keepRow).map (fun row => strOrEmpty ext (colCell row "title"))
    ∧ ∀ row : List JSVal,
        keepRow row = true ↔
          (colCell row "title" ≠ JSVal.undef ∧ colCell row "title" ≠ JSVal.str "") := by
  constructor
  · exact map_proj_mapWithIndex ext PortfolioItem.title
      (fun row => strOrEmpty ext (colCell row "title")) (fun _ _ => rfl) 0
      (values.filter keepRow)
  · intro row
    simp [keepRow, Bool.and_eq_true, bne_iff_ne]

/-! ### C3 -/

/-- A thirteen-column data row with a non-empty title whose `Amazon` link
cell (the cell the source reads at `COL.Amazon`) holds the number `0`:
the cell is neither `undefined` nor the empty string, yet no link entry
is produced for it. -/
def rowAmazonZero : List JSVal :=
  [JSVal.str "p2", JSVal.str "2024-05-01", JSVal.str "Title", JSVal.str "",
   JSVal.str "", JSVal.str "", JSVal.str "", JSVal.num 0,
   JSVal.str "", JSVal.str "", JSVal.str "", JSVal.str "", JSVal.str ""]

/-- C3 counterexample: a retained row whose `Amazon` cell is the number
`0` — a value that is neither `undefined` nor the empty string — yields
an item with no links at all, so the claimed "one entry per link column
whose cell is non-empty" fails on this cell. -/
theorem amazonZero_cell_nonEmpty_no_entry :
    colCell rowAmazonZero "Amazon" = JSVal.num 0
    ∧ colCell rowAmazonZero "Amazon" ≠ JSVal.undef
    ∧ colCell rowAmazonZero "Amazon" ≠ JSVal.str ""
    ∧ (itemsOfValues extC [rowAmazonZero]).length = 1
    ∧ (itemsOfValues extC [rowAmazonZero]).map PortfolioItem.links = [[]] := by
  refine ⟨rfl, by decide, by decide, rfl, rfl⟩

/-- C3 amended: for every retained row, `links` contains exactly one
`{label, url}` entry for each of the seven fixed link columns whose cell
coerces to a non-empty string under `String(cell || '')` (so a falsy
cell such as the number `0`, like an empty cell, produces no entry), in
the fixed `LINK_KEYS` order, and no entry ever has an empty url. -/
theorem links_one_entry_per_truthy_cell (ext : Ext) (values : List (List JSVal)) :
    (itemsOfValues ext values).map PortfolioItem.links =
      (values.filter keepRow).map (fun row =>
        (LINK_KEYS.filter (fun key => strOrEmpty ext (colCell row key) != "")).map
          (fun key => ({ label := key, url := strOrEmpty ext (colCell row key) } : LinkEntry)))
    ∧ ((itemsOfValues ext values).all
        fun item => item.links.all fun link => link.url != "") = true := by
  constructor
  · exact map_proj_mapWithIndex ext PortfolioItem.links _
      (fun i row => rowToItem_links ext i row) 0 (values.filter keepRow)
  · refine all_mapWithIndex ext _ (fun i row => ?_) 0 (values.filter keepRow)
    rw [rowToItem_links ext i row]
    rw [List.all_eq_true]
    intro link hlink
    rw [List.mem_map] at hlink
    obtain ⟨key, hkey, rfl⟩ := hlink
    exact (List.mem_filter.mp hkey).2

/-! ### C4 -/

/-- Boolean parsing as the specification words it: a native boolean is
returned unchanged; a falsy non-boolean gives `false`; otherwise the
result is whether the lowercased, trimmed stringification is one of
`"true"`, `"1"`, `"yes"`. -/
def parseBooleanClaim (ext : Ext) (value : JSVal) : Bool :=
  match value with
  | .bool b => b
  | v =>
    if falsy v then false
    else (["true", "1", "yes"] : List String).contains (jsTrim (jsToLower (jsToString ext v)))

theorem contains_three_strings (s : String) :
    (["true", "1", "yes"] : List String).contains s =
      (s == "true" || s == "1" || s == "yes") := by
  cases h1 : s == "true" <;> cases h2 : s == "1" <;> cases h3 : s == "yes" <;>
    simp [List.contains, List.elem, h1, h2, h3]

/-- C4: `parseBoolean` returns a native boolean unchanged, returns
`false` for every falsy non-boolean value, and otherwise returns `true`
exactly when the lowercased, trimmed stringification is `"true"`, `"1"`
or `"yes"` — with the claim's concrete instances
`parseBoolean(true) = true`, `parseBoolean("TRUE") = true`,
`parseBoolean("1") = true`, `parseBoolean("no") = false`,
`parseBoolean(0) = false`, `parseBoolean(undefined) = false`. -/
theorem parseBoolean_meets_claim (ext : Ext) :
    (∀ value : JSVal, parseBoolean ext value = parseBooleanClaim ext value)
    ∧ parseBoolean ext (JSVal.bool true) = true
    ∧ parseBoolean ext (JSVal.str "TRUE") = true
    ∧ parseBoolean ext (JSVal.str "1") = true
    ∧ parseBoolean ext (JSVal.str "no") = false
    ∧ parseBoolean ext (JSVal.num 0) = false
    ∧ parseBoolean ext JSVal.undef = false := by
  refine ⟨fun value => ?_, rfl, rfl, rfl, rfl, rfl, rfl⟩
  cases value <;> simp only [parseBoolean, parseBooleanClaim, contains_three_strings]

/-! ### C5 -/

/-- Tag parsing as the specification words it: falsy input gives the
empty sequence; otherwise split the stringification on commas, trim each
piece, and drop every piece that is empty after trimming. -/
def parseTagsClaim (ext : Ext) (value : JSVal) : List String :=
  if falsy value then []
  else ((jsSplit ',' (jsToString ext value)).map jsTrim).filter (fun tag => tag != "")

theorem length_pos_eq_bne_empty (s : String) : (decide (0 < s.length)) = (s != "") := by
  rw [Bool.eq_iff_iff]
  simp only [decide_eq_true_eq, bne_iff_ne, ne_eq, String.ext_iff]
  cases s with
  | mk data => cases data <;> simp [String.length]

/-- C5: `parseTags` splits the stringification on commas, trims each
piece, and drops pieces that are empty after trimming, with falsy input
giving the empty sequence — and on the claim's concrete instances,
`parseTags("React, TypeScript, GAS") = ["React","TypeScript","GAS"]`,
`parseTags("") = []`, `parseTags("a,,b") = ["a","b"]`. -/
theorem parseTags_meets_claim (ext : Ext) :
    (∀ value : JSVal, parseTags ext value = parseTagsClaim ext value)
    ∧ parseTags ext (JSVal.str "React, TypeScript, GAS") = ["React", "TypeScript", "GAS"]
    ∧ parseTags ext (JSVal.str "") = []
    ∧ parseTags ext (JSVal.str "a,,b") = ["a", "b"] := by
  refine ⟨fun value => ?_, rfl, rfl, rfl⟩
  unfold parseTags parseTagsClaim
  cases falsy value
  · simp only [if_neg Bool.false_ne_true]
    exact List.filter_congr (fun tag _ => length_pos_eq_bne_empty tag)
  · rfl

/-! ### C6 -/

/-- The `statusCode` of a response, when it is an error envelope. -/
def statusOf : Response → Option Nat
  | .success _ => none
  | .errorEnv _ statusCode => some statusCode

theorem doGet_shape (ext : Ext) (env : Env) (e : Option ReqEvent) :
    (∃ payload, doGet ext env e = Response.success payload)
    ∨ ∃ msg, doGet ext env e =
        Response.errorEnv ("Internal server error: " ++ errToString msg) 500 := by
  cases h : routeResult ext env e with
  | ok payload => exact Or.inl ⟨payload, by simp [doGet, h]⟩
  | error msg => exact Or.inr ⟨msg, by simp [doGet, h, createErrorResponse]⟩

/-- C6: every exception raised while computing a response — the
sheet-not-found throw included — is caught at the `doGet` boundary and
converted into the error envelope with `statusCode` 500: every response
is either a success payload or an envelope whose message is
`'Internal server error: ' + error.toString()` and whose status code is
500; no other status code ever appears, and with the sheet lookup
failing, `doGet` returns the envelope rather than propagating the
exception. -/
theorem doGet_catches_all_errors (ext : Ext) (env : Env) (e : Option ReqEvent) :
    ((∃ payload, doGet ext env e = Response.success payload)
      ∨ ∃ msg, doGet ext env e =
          Response.errorEnv ("Internal server error: " ++ errToString msg) 500)
    ∧ (statusOf (doGet ext env e) = none ∨ statusOf (doGet ext env e) = some 500)
    ∧ doGet ext { env with sheet := none } none =
        Response.errorEnv
          ("Internal server error: "
            ++ errToString ("Sheet \"" ++ env.sheetName ++ "\" not found")) 500 := by
  refine ⟨doGet_shape ext env e, ?_, rfl⟩
  rcases doGet_shape ext env e with ⟨payload, hp⟩ | ⟨msg, hm⟩
  · exact Or.inl (by rw [hp]; rfl)
  · exact Or.inr (by rw [hm]; rfl)

/-! ### C7 -/

/-- The response of the items branch of the router: the full collection
on success, the error envelope otherwise. -/
def itemsResponse (ext : Ext) (env : Env) : Response :=
  match getPortfolioItems ext env with
  | Except.ok itemList => Response.success (Payload.items itemList)
  | Except.error m => createErrorResponse ("Internal server error: " ++ errToString m) 500

/-- C7: the response of `doGet` is determined solely by whether the
request's action resolves to `"images"`: two requests agreeing on that
predicate receive identical responses over the same external data, and
every request whose action is not `"images"` — absent action, the
documented `id` parameter, or any other parameter — receives the items
response, the full collection. -/
theorem doGet_depends_only_on_images_flag (ext : Ext) (env : Env) :
    (∀ e1 e2 : Option ReqEvent,
      (requestAction e1 == "images") = (requestAction e2 == "images") →
      doGet ext env e1 = doGet ext env e2)
    ∧ ∀ e : Option ReqEvent, (requestAction e == "images") = false →
        doGet ext env e = itemsResponse ext env := by
  have hroute : ∀ e : Option ReqEvent, (requestAction e == "images") = false →
      doGet ext env e = itemsResponse ext env := by
    intro e he
    unfold doGet routeResult itemsResponse
    rw [he]
    cases h : getPortfolioItems ext env <;> simp [h]
  constructor
  · intro e1 e2 h
    cases h2 : (requestAction e2 == "images") with
    | false => rw [hroute e1 (h.trans h2), hroute e2 h2]
    | true =>
      unfold doGet routeResult
      rw [h, h2]
  · exact hroute

/-- A concrete routing environment for exercising the router. -/
def envRouting : Env :=
  { sheetName := "Portfolio"
    sheet := some { lastRow := 1, dataRows := [] }
    driveFolderId := none
    folder := Except.ok [] }

/-- C7 witness: a request carrying only the documented `id` parameter and
a request with no parameters at all receive identical responses, and a
request with `action=items` receives the items response. -/
theorem doGet_depends_only_on_images_flag_witness :
    doGet extC envRouting (some { parameter := some [("id", "project-001")] }) =
      doGet extC envRouting none
    ∧ doGet extC envRouting (some { parameter := some [("action", "items")] }) =
        itemsResponse extC envRouting :=
  ⟨(doGet_depends_only_on_images_flag extC envRouting).1
      (some { parameter := some [("id", "project-001")] }) none rfl,
    (doGet_depends_only_on_images_flag extC envRouting).2
      (some { parameter := some [("action", "items")] }) rfl⟩

/-! ### C8 -/

/-- Membership of a file's MIME type in the fixed allow-list. -/
def allowedImage (file : DriveFile) : Bool :=
  imageMimeTypes.contains file.mimeType

theorem collectImages_eq (ext : Ext) (files : List DriveFile) :
    collectImages ext files = (files.filter allowedImage).map
      (fun file =>
        ({ name := file.id, mimeType := file.mimeType,
           data := ext.base64Encode file.bytes } : ImageRecord)) := by
  induction files with
  | nil => rfl
  | cons f fs ih =>
    by_cases h : f.mimeType ∈ imageMimeTypes <;>
      simp [collectImages, List.filter_cons, allowedImage, h, ih]

/-- C8: the image listing contains exactly one `ImageRecord` per file of
the folder whose MIME type is in the fixed allow-list — the output is the
allow-list filter of the listing, mapped to records — and a file outside
the allow-list contributes nothing while causing no error: with the
folder id set and the folder resolved, `getDriveImages` succeeds with
exactly the collected records. -/
theorem getDriveImages_mime_allowlist (ext : Ext) :
    (∀ files : List DriveFile,
      collectImages ext files = (files.filter allowedImage).map
        (fun file =>
          ({ name := file.id, mimeType := file.mimeType,
             data := ext.base64Encode file.bytes } : ImageRecord)))
    ∧ ∀ (env : Env) (files : List DriveFile), folderIdMissing env = false →
        env.folder = Except.ok files →
        getDriveImages ext env = Except.ok (collectImages ext files) := by
  refine ⟨collectImages_eq ext, fun env files h1 h2 => ?_⟩
  simp [getDriveImages, h1, h2]

/-- A PNG file of the folder listing. -/
def filePng : DriveFile := { id := "file-png", mimeType := "image/png", bytes := [137, 80] }

/-- A non-image file of the folder listing. -/
def fileTxt : DriveFile := { id := "file-txt", mimeType := "text/plain", bytes := [104, 105] }

/-- A concrete environment whose folder holds one image and one
non-image file. -/
def envDrive : Env :=
  { sheetName := "Portfolio"
    sheet := none
    driveFolderId := some "folder-1"
    folder := Except.ok [filePng, fileTxt] }

/-- C8 witness: on a folder with a PNG and a text file, `getDriveImages`
succeeds with the collected records. -/
theorem getDriveImages_mime_allowlist_witness :
    getDriveImages extC envDrive = Except.ok (collectImages extC [filePng, fileTxt]) :=
  (getDriveImages_mime_allowlist extC).2 envDrive [filePng, fileTxt] rfl rfl

/-! ### C9 -/

/-- C9: the items computation has no partial-result mode: the only
failure is the sheet lookup — when the sheet is present the result is a
success carrying the full collection, with exactly one item per retained
row (the coercion helpers are total functions of the embedding, so no
row can fail individually). -/
theorem getPortfolioItems_full_or_error (ext : Ext) (env : Env) :
    (env.sheet = none ∧
      getPortfolioItems ext env =
        Except.error ("Sheet \"" ++ env.sheetName ++ "\" not found"))
    ∨ ∃ sheet : SheetData, env.sheet = some sheet ∧
        getPortfolioItems ext env =
          Except.ok (if sheet.lastRow ≤ 1 then [] else itemsOfValues ext sheet.dataRows) ∧
        (itemsOfValues ext sheet.dataRows).length =
          (sheet.dataRows.filter keepRow).length := by
  cases hs : env.sheet with
  | none => exact Or.inl ⟨rfl, by simp [getPortfolioItems, hs]⟩
  | some sheet =>
    refine Or.inr ⟨sheet, rfl, ?_, length_mapWithIndex (rowToItem ext) 0 _⟩
    unfold getPortfolioItems
    rw [hs]
    by_cases h : sheet.lastRow ≤ 1 <;> simp [h]

/-! ### C10 -/

/-- C10: `getDriveImages` emits its records in exactly the folder
enumeration order: the output is the order-preserving restriction of the
listing to allow-listed files — the emitted names are the ids of the
allow-listed files in listing order and a sublist of all listed ids —
with each record's `name` the file's id, `mimeType` the file's MIME
type, and `data` the base64 encoding of that file's bytes. -/
theorem collectImages_order_preserving (ext : Ext) (files : List DriveFile) :
    (collectImages ext files).map ImageRecord.name =
      (files.filter allowedImage).map DriveFile.id
    ∧ (collectImages ext files).map ImageRecord.mimeType =
        (files.filter allowedImage).map DriveFile.mimeType
    ∧ (collectImages ext files).map ImageRecord.data =
        (files.filter allowedImage).map (fun file => ext.base64Encode file.bytes)
    ∧ List.Sublist ((collectImages ext files).map ImageRecord.name)
        (files.map DriveFile.id) := by
  have hc := collectImages_eq ext files
  refine ⟨?_, ?_, ?_, ?_⟩ <;> rw [hc, List.map_map]
  · rfl
  · rfl
  · rfl
  · exact (List.filter_sublist files).map DriveFile.id

end PortfolioApi
